import Mathlib

/-!
# Verification of the FYERS equity backfill engine and its dashboard monitor

Shallow embedding of `src/fetcher/backfill_fyers_equity.py`,
`src/config/settings.py` and `src/dashboard/main.py`.

Calendar dates are modelled as integer day numbers: the source walks
midnight-aligned UTC `datetime` values in whole-day `timedelta` steps, and
`strftime("%Y-%m-%d")` is injective and order-preserving on such values, so
day arithmetic over `Int` is faithful.
-/

set_option autoImplicit false

namespace Backfill

/-- `MAX_CHUNK_DAYS = 365` (constants section of the fetcher). -/
def MAX_CHUNK_DAYS : Int := 365

/-- `MAX_RETRIES = 3`. -/
def MAX_RETRIES : Nat := 3

/-- `RETRY_DELAY = 1` (seconds, base backoff delay). -/
def RETRY_DELAY : Nat := 1

/-- `LOOKBACK_YEARS` from `config/settings.py` (default `"2"`). -/
def LOOKBACK_YEARS : Int := 2

/-- The `while current_start < end_date` loop body of `generate_date_chunks`.
`fuel` only totalises the loop: for `chunk_days ≥ 1` every iteration advances
`current_start` by at least one day, so `(end_date - start).toNat` iterations
always suffice and the fuel never cuts the loop short. -/
def chunksLoop (fuel : Nat) (current_start end_date chunk_days : Int) :
    List (Int × Int) :=
  match fuel with
  | 0 => []
  | fuel + 1 =>
    if current_start < end_date then
      let current_end := min (current_start + chunk_days - 1) end_date
      (current_start, current_end) :: chunksLoop fuel (current_end + 1) end_date chunk_days
    else []

/-- `generate_date_chunks(start_date, end_date, chunk_days)` from
`fetcher/backfill_fyers_equity.py` (lines 136–155), on day numbers.
For `chunk_days ≤ 0` the Python loop diverges; no claim concerns that case. -/
def generate_date_chunks (start_date end_date chunk_days : Int) : List (Int × Int) :=
  chunksLoop (end_date - start_date).toNat start_date end_date chunk_days

/-- `Tiles lo hi l`: the chunk list `l` tiles the inclusive day interval
`[lo, hi]` exactly — the first chunk starts at `lo`, each chunk is non-empty
and the next chunk starts the day after the previous chunk ends, and the last
chunk ends at `hi` (an empty list tiles the empty interval `[lo, lo-1]`).
This single predicate packages "ordered, contiguous, non-overlapping, jointly
covering". -/
inductive Tiles : Int → Int → List (Int × Int) → Prop
  | nil (lo : Int) : Tiles lo (lo - 1) []
  | cons {lo hi b : Int} {rest : List (Int × Int)} :
      lo ≤ b → Tiles (b + 1) hi rest → Tiles lo hi ((lo, b) :: rest)

theorem Tiles.lo_le_hi_add_one {lo hi : Int} {l : List (Int × Int)}
    (h : Tiles lo hi l) : lo ≤ hi + 1 := by
  induction h with
  | nil lo => omega
  | @cons lo hi b rest hb ht ih => omega

theorem Tiles.bounds {lo hi : Int} {l : List (Int × Int)} (h : Tiles lo hi l) :
    ∀ c ∈ l, lo ≤ c.1 ∧ c.1 ≤ c.2 ∧ c.2 ≤ hi := by
  induction h with
  | nil lo => intro c hc; cases hc
  | @cons lo hi b rest hb ht ih =>
    intro c hc
    have hbh := ht.lo_le_hi_add_one
    rcases List.mem_cons.mp hc with rfl | hc
    · exact ⟨le_refl _, hb, by omega⟩
    · rcases ih c hc with ⟨h1, h2, h3⟩
      exact ⟨by omega, h2, h3⟩

/-- A tiling is contiguous: each chunk after the first starts the day after
the previous chunk's end. -/
theorem Tiles.chain {lo hi : Int} {l : List (Int × Int)} (h : Tiles lo hi l) :
    l.Chain' (fun c c' => c'.1 = c.2 + 1) := by
  induction h with
  | nil lo => exact List.chain'_nil
  | @cons lo hi b rest hb ht ih =>
    rcases rest with - | ⟨hd, tl⟩
    · exact List.chain'_singleton _
    · rcases ht with _ | ⟨hb', ht'⟩
      exact List.Chain'.cons rfl ih

/-- A tiling is non-overlapping (in fact strictly ordered). -/
theorem Tiles.pairwise {lo hi : Int} {l : List (Int × Int)} (h : Tiles lo hi l) :
    l.Pairwise (fun c c' => c.2 < c'.1) := by
  induction h with
  | nil lo => exact List.Pairwise.nil
  | @cons lo hi b rest hb ht ih =>
    refine List.Pairwise.cons ?_ ih
    intro c hc
    have := ht.bounds c hc
    omega

/-- A tiling covers exactly its interval. -/
theorem Tiles.cover {lo hi : Int} {l : List (Int × Int)} (h : Tiles lo hi l) :
    ∀ d : Int, (lo ≤ d ∧ d ≤ hi) ↔ ∃ c ∈ l, c.1 ≤ d ∧ d ≤ c.2 := by
  induction h with
  | nil lo =>
    intro d
    constructor
    · intro hd; omega
    · rintro ⟨c, hc, -⟩; cases hc
  | @cons lo hi b rest hb ht ih =>
    intro d
    have hhi := ht.lo_le_hi_add_one
    constructor
    · rintro ⟨h1, h2⟩
      by_cases hle : d ≤ b
      · exact ⟨(lo, b), List.mem_cons_self _ _, h1, hle⟩
      · rcases (ih d).mp ⟨by omega, h2⟩ with ⟨c, hc, hcd⟩
        exact ⟨c, List.mem_cons_of_mem _ hc, hcd⟩
    · rintro ⟨c, hc, hc1, hc2⟩
      rcases List.mem_cons.mp hc with rfl | hc
      · simp only at hc1 hc2
        omega
      · have := ht.bounds c hc
        omega

/-- The last chunk of a non-empty tiling ends at `hi`. -/
theorem Tiles.getLast {lo hi : Int} {l : List (Int × Int)} (h : Tiles lo hi l)
    (hne : l ≠ []) : ∃ p, l.getLast? = some p ∧ p.2 = hi := by
  induction h with
  | nil lo => exact absurd rfl hne
  | @cons lo hi b rest hb ht ih =>
    rcases rest with - | ⟨hd, tl⟩
    · rcases ht with _ | ⟨hb', ht'⟩
      exact ⟨(lo, b), rfl, by omega⟩
    · rcases ih (by simp) with ⟨p, hp, hp2⟩
      refine ⟨p, ?_, hp2⟩
      rw [List.getLast?_cons_cons]
      exact hp

theorem chunksLoop_nil {fuel : Nat} {cs e cd : Int} (h : ¬ cs < e) :
    chunksLoop fuel cs e cd = [] := by
  cases fuel with
  | zero => rfl
  | succ fuel => simp [chunksLoop, h]

theorem chunksLoop_chunk_bounds {cd : Int} (hcd : 1 ≤ cd) :
    ∀ (fuel : Nat) (cs e : Int) (c : Int × Int), c ∈ chunksLoop fuel cs e cd →
      c.1 ≤ c.2 ∧ c.2 - c.1 + 1 ≤ cd := by
  intro fuel
  induction fuel with
  | zero => intro cs e c hc; cases hc
  | succ fuel ih =>
    intro cs e c hc
    by_cases hlt : cs < e
    · simp only [chunksLoop, if_pos hlt] at hc
      rcases List.mem_cons.mp hc with hceq | hc
      · have h1 : c.1 = cs := by rw [hceq]
        have h2 : c.2 = min (cs + cd - 1) e := by rw [hceq]
        omega
      · exact ih _ _ _ hc
    · rw [chunksLoop_nil hlt] at hc; cases hc

theorem chunksLoop_spec : ∀ (fuel : Nat) (s e cd : Int), 1 ≤ cd →
    (e - s).toNat ≤ fuel → s < e →
    ∃ E : Int, Tiles s E (chunksLoop fuel s e cd) ∧
      (E = e ↔ ¬ cd ∣ (e - s)) ∧ e - 1 ≤ E ∧ E ≤ e := by
  intro fuel
  induction fuel with
  | zero =>
    intro s e cd hcd hfuel hlt
    exfalso
    omega
  | succ fuel ih =>
    intro s e cd hcd hfuel hlt
    simp only [chunksLoop, if_pos hlt]
    by_cases hnext : min (s + cd - 1) e + 1 < e
    · rcases ih (min (s + cd - 1) e + 1) e cd hcd (by omega) hnext with
        ⟨E, hT, hchar, hE1, hE2⟩
      refine ⟨E, Tiles.cons (by omega) hT, ?_, hE1, hE2⟩
      have hbval : min (s + cd - 1) e = s + cd - 1 := by omega
      rw [hbval] at hchar
      have hdvd : cd ∣ (e - (s + cd - 1 + 1)) ↔ cd ∣ (e - s) := by
        constructor
        · intro h
          have : e - s = (e - (s + cd - 1 + 1)) + cd := by ring
          rw [this]
          exact dvd_add h (dvd_refl cd)
        · intro h
          have : e - (s + cd - 1 + 1) = (e - s) - cd := by ring
          rw [this]
          exact dvd_sub h (dvd_refl cd)
      rw [hdvd] at hchar
      exact hchar
    · have hb1 : min (s + cd - 1) e ≤ e := by omega
      have hrest : chunksLoop fuel (min (s + cd - 1) e + 1) e cd = [] :=
        chunksLoop_nil (by omega)
      rw [hrest]
      by_cases hclip : min (s + cd - 1) e = e
      · refine ⟨e, ?_, ?_, by omega, by omega⟩
        · rw [hclip]
          exact Tiles.cons (by omega) (by have := Tiles.nil (e + 1); simpa using this)
        · refine iff_of_true rfl ?_
          intro hdvd
          have h1 : (0:Int) < e - s := by omega
          have h2 : e - s < cd := by omega
          have := Int.le_of_dvd h1 hdvd
          omega
      · have hbe : min (s + cd - 1) e = e - 1 := by omega
        have hecd : e - s = cd := by omega
        refine ⟨e - 1, ?_, ?_, by omega, by omega⟩
        · rw [hbe]
          exact Tiles.cons (by omega) (by have := Tiles.nil e; simpa using this)
        · constructor
          · intro h; omega
          · intro h
            exact absurd (by rw [hecd]) h

/-- **C1** (amended). For every start day `s`, end day `e` and
`chunk_days = cd ≥ 1`: when `s ≥ e` the output of `generate_date_chunks` is
empty; when `s < e` it is a non-empty ordered sequence of chunks that is
contiguous (each chunk after the first starts the day after the previous
chunk's end), non-overlapping, with each chunk non-empty and at most
`chunk_days` days long, jointly covering exactly `[s, E]`, where the last
chunk's end `E` equals `e` exactly when `chunk_days` does not divide `e - s`
and equals `e - 1` otherwise (so the sequence always covers at least
`[s, e)`, but the claim's "covers exactly `[start, end]` with last end `end`"
fails in the dividing case). -/
theorem generate_date_chunks_spec (s e cd : Int) (hcd : 1 ≤ cd) :
    (e ≤ s → generate_date_chunks s e cd = []) ∧
    (s < e → ∃ E : Int,
      (E = e ↔ ¬ cd ∣ (e - s)) ∧ (e - 1 ≤ E ∧ E ≤ e) ∧
      generate_date_chunks s e cd ≠ [] ∧
      Tiles s E (generate_date_chunks s e cd) ∧
      (generate_date_chunks s e cd).Chain' (fun c c' => c'.1 = c.2 + 1) ∧
      (generate_date_chunks s e cd).Pairwise (fun c c' => c.2 < c'.1) ∧
      (∀ c ∈ generate_date_chunks s e cd, c.1 ≤ c.2 ∧ c.2 - c.1 + 1 ≤ cd) ∧
      (∀ d : Int, (s ≤ d ∧ d ≤ E) ↔ ∃ c ∈ generate_date_chunks s e cd, c.1 ≤ d ∧ d ≤ c.2) ∧
      (∃ p, (generate_date_chunks s e cd).getLast? = some p ∧ p.2 = E)) := by
  constructor
  · intro hle
    exact chunksLoop_nil (by omega)
  · intro hlt
    rcases chunksLoop_spec (e - s).toNat s e cd hcd (le_refl _) hlt with
      ⟨E, hT, hchar, hE1, hE2⟩
    have hne : generate_date_chunks s e cd ≠ [] := by
      intro hnil
      unfold generate_date_chunks at hnil
      rw [hnil] at hT
      rcases hT with _ | _
      omega
    exact ⟨E, hchar, ⟨hE1, hE2⟩, hne, hT, hT.chain, hT.pairwise,
      fun c hc => chunksLoop_chunk_bounds hcd _ _ _ _ hc, hT.cover, hT.getLast hne⟩

/-- **C1** counterexample: for `start = day 0`, `end = day 1`,
`chunk_days = 1` (e.g. start `2024-01-01`, end `2024-01-02`) the produced
sequence is the single chunk `(0, 0)`: its end is `0 ≠ 1 = end`, so the last
chunk's end does not equal `end` and day `end` is covered by no chunk,
refuting the claim as stated. -/
theorem generate_date_chunks_last_end_ne_end :
    generate_date_chunks 0 1 1 = [(0, 0)] ∧
    ((generate_date_chunks 0 1 1).getLast?.getD (0, 0)).2 ≠ 1 := by
  constructor
  · rfl
  · decide

/-- **C1** witness: `generate_date_chunks_spec` instantiated at
`start = 0`, `end = 700`, `chunk_days = 365` is non-vacuous; the chunk list
evaluates to `[(0, 364), (365, 700)]`. -/
theorem generate_date_chunks_spec_witness :
    generate_date_chunks 0 700 365 = [(0, 364), (365, 700)] ∧
    generate_date_chunks 0 700 365 ≠ [] := by
  constructor
  · rfl
  · have h := (generate_date_chunks_spec 0 700 365 (by decide)).2 (by decide)
    rcases h with ⟨E, -, -, hne, -⟩
    exact hne

/-! ## CandleValidator (`validate_candle_data`, fetcher lines 52–76)

Raw provider fields are modelled by `PyVal`: a numeric field carries an
integer value (the claims' candles are integer-valued; only ordered
comparisons are performed on prices), and `PyVal.txt` is a non-numeric field
whose comparison against a number raises `TypeError`. -/

inductive PyErr where
  | typeError
  | valueError
deriving DecidableEq, Repr

inductive PyVal where
  | num (x : Int)
  | txt (s : String)
deriving DecidableEq, Repr

/-- `price <= 0` on one raw field; comparing a non-numeric field raises. -/
def pyLeZero : PyVal → Except PyErr Bool
  | .num x => .ok (decide (x ≤ 0))
  | .txt _ => .error .typeError

/-- `any(price <= 0 for price in prices)`: lazy, left to right. -/
def pyAnyLeZero : List PyVal → Except PyErr Bool
  | [] => .ok false
  | p :: rest => do
    let b ← pyLeZero p
    if b then pure true else pyAnyLeZero rest

/-- Extract the numeric value of a field (raises on a non-numeric field). -/
def pyNum : PyVal → Except PyErr Int
  | .num x => .ok x
  | .txt _ => .error .typeError

/-- `v < 0` on one raw field. -/
def pyLtZero : PyVal → Except PyErr Bool
  | .num x => .ok (decide (x < 0))
  | .txt _ => .error .typeError

/-- The body of `validate_candle_data` before the `except` clause:
unpack `ts, o, h, l, c, v = candle` (raising `ValueError` unless the record
has exactly six fields), then the three checks in source order.  When the
`any(...)` check completed with `False`, all four prices are numeric, so the
OHLC comparisons on lines 63 cannot raise. -/
def validate_candle_body (candle : List PyVal) : Except PyErr Bool :=
  match candle with
  | [_ts, o, h, l, c, v] => do
    let anyBad ← pyAnyLeZero [o, h, l, c]
    if anyBad then pure false
    else do
      let oN ← pyNum o
      let hN ← pyNum h
      let lN ← pyNum l
      let cN ← pyNum c
      if hN < max oN cN ∨ lN > min oN cN then pure false
      else do
        let vNeg ← pyLtZero v
        if vNeg then pure false else pure true
  | _ => .error .valueError

/-- `validate_candle_data(symbol, candle)`: the surrounding `try/except`
catches every raised error and returns `False` (the symbol argument is used
only for logging). -/
def validate_candle_data (_symbol : String) (candle : List PyVal) : Bool :=
  match validate_candle_body candle with
  | .ok b => b
  | .error _ => false

/-- **C5**: on a six-field numeric candle `(ts, o, h, l, c, v)`,
`validate_candle_data` returns `False` exactly when one of `o, h, l, c` is
`≤ 0`, or `h < max(o, c)`, or `l > min(o, c)`, or `v < 0`, and `True`
otherwise; in particular it rejects `(open=0, high=10, low=1, close=5,
volume=100)` and `(open=6, high=5, low=1, close=7, volume=10)` and accepts
`(open=10, high=12, low=9, close=11, volume=1000)`. -/
theorem validate_candle_data_spec :
    (∀ (sym : String) (ts o h l c v : Int),
      validate_candle_data sym [.num ts, .num o, .num h, .num l, .num c, .num v] = false ↔
        (o ≤ 0 ∨ h ≤ 0 ∨ l ≤ 0 ∨ c ≤ 0 ∨ h < max o c ∨ l > min o c ∨ v < 0)) ∧
    validate_candle_data "S" [.num 0, .num 0, .num 10, .num 1, .num 5, .num 100] = false ∧
    validate_candle_data "S" [.num 0, .num 6, .num 5, .num 1, .num 7, .num 10] = false ∧
    validate_candle_data "S" [.num 0, .num 10, .num 12, .num 9, .num 11, .num 1000] = true := by
  refine ⟨?_, by decide, by decide, by decide⟩
  intro sym ts o h l c v
  simp only [validate_candle_data, validate_candle_body, pyAnyLeZero, pyLeZero, pyNum,
    pyLtZero, bind, Except.bind, pure, Except.pure]
  split_ifs <;> simp_all <;> omega

/-- **C10**: a raw candle record that does not unpack into exactly six fields
(wrong length raises `ValueError`), or whose `o/h/l/c/v` fields include a
non-numeric value (whose comparison raises `TypeError`), makes
`validate_candle_data` return `False` — the raise is caught by its
`try/except`, so a malformed provider record is dropped as invalid rather
than aborting the enclosing chunk (the embedding returns `Bool`, so nothing
propagates). -/
theorem validate_candle_data_malformed (sym : String) (candle : List PyVal)
    (h : candle.length ≠ 6 ∨ ∃ i, 1 ≤ i ∧ i ≤ 5 ∧ ∃ s, candle[i]? = some (.txt s)) :
    validate_candle_data sym candle = false := by
  rcases candle with - | ⟨a1, - | ⟨a2, - | ⟨a3, - | ⟨a4, - | ⟨a5, - | ⟨a6, - | ⟨a7, t⟩⟩⟩⟩⟩⟩⟩
  · rfl
  · rfl
  · rfl
  · rfl
  · rfl
  · rfl
  · rcases h with h6 | ⟨i, hi1, hi5, s, hget⟩
    · simp at h6
    · interval_cases i <;>
        rcases a2 with x2 | s2 <;> rcases a3 with x3 | s3 <;> rcases a4 with x4 | s4 <;>
        rcases a5 with x5 | s5 <;> rcases a6 with x6 | s6 <;>
        simp_all [validate_candle_data, validate_candle_body, pyAnyLeZero, pyLeZero, pyNum,
          pyLtZero, bind, Except.bind, pure, Except.pure] <;>
        split_ifs <;> simp_all
  · rfl

/-- **C10** witness: a two-field record and a six-field record with a
non-numeric volume are both rejected. -/
theorem validate_candle_data_malformed_witness :
    validate_candle_data "X" [.num 0, .num 1] = false ∧
    validate_candle_data "X"
      [.num 0, .num 10, .num 12, .num 9, .num 11, .txt "n/a"] = false := by
  constructor
  · exact validate_candle_data_malformed "X" _ (Or.inl (by decide))
  · exact validate_candle_data_malformed "X" _
      (Or.inr ⟨5, by decide, by decide, "n/a", by decide⟩)

/-! ## Persister (`insert_candle`, fetcher lines 168–175)

The table DDL is not part of the repository sources.  Modelled from the spec:
`(symbol, trade_date)` is the table's natural key, so the store is a row list
in which at most one row carries any given key (`WellKeyed`), and the
`INSERT OR IGNORE` statement appends the row exactly when its key is absent
and otherwise does nothing. -/

structure CandleRow where
  symbol : String
  trade_date : String
  open_price : Int
  high : Int
  low : Int
  close : Int
  volume : Int
  source : String
deriving DecidableEq, Repr

/-- Does the store already hold a row with this `(symbol, trade_date)` key? -/
def hasKey (db : List CandleRow) (sym d : String) : Bool :=
  db.any fun r => r.symbol == sym && r.trade_date == d

/-- `insert_candle(cursor, row)`: `INSERT OR IGNORE` keyed on
`(symbol, trade_date)` (modelled from the spec, see section comment). -/
def insert_candle (db : List CandleRow) (row : CandleRow) : List CandleRow :=
  if hasKey db row.symbol row.trade_date then db else db ++ [row]

/-- Number of rows in the store carrying the key `(sym, d)`. -/
def keyCount (db : List CandleRow) (sym d : String) : Nat :=
  (db.filter fun r => r.symbol == sym && r.trade_date == d).length

/-- The store invariant guaranteed by the natural key: at most one row per
`(symbol, trade_date)`. -/
def WellKeyed (db : List CandleRow) : Prop :=
  ∀ sym d, keyCount db sym d ≤ 1

theorem hasKey_iff_keyCount_pos (db : List CandleRow) (sym d : String) :
    hasKey db sym d = true ↔ 0 < keyCount db sym d := by
  simp only [hasKey, keyCount, List.any_eq_true, List.length_pos_iff_exists_mem,
    List.mem_filter]

theorem keyCount_append_single (db : List CandleRow) (row : CandleRow) (sym d : String) :
    keyCount (db ++ [row]) sym d =
      keyCount db sym d + (if row.symbol == sym && row.trade_date == d then 1 else 0) := by
  simp only [keyCount, List.filter_append, List.length_append]
  split_ifs with hm <;> simp [List.filter, hm]

/-- **C2**: over any store satisfying the natural-key invariant, persisting a
row twice via `insert_candle` leaves exactly one row with that
`(symbol, trade_date)` key; inserting a row whose key is already present is a
no-op that leaves the store (hence the existing row's values) unchanged — no
duplicate and no overwrite — and insertion preserves the key invariant. -/
theorem insert_candle_idempotent (db : List CandleRow) (row : CandleRow)
    (hwf : WellKeyed db) :
    keyCount (insert_candle (insert_candle db row) row) row.symbol row.trade_date = 1 ∧
    (hasKey db row.symbol row.trade_date = true → insert_candle db row = db) ∧
    WellKeyed (insert_candle db row) := by
  by_cases hk : hasKey db row.symbol row.trade_date
  · have h1 : insert_candle db row = db := by simp [insert_candle, hk]
    refine ⟨?_, fun _ => h1, by rwa [h1]⟩
    rw [h1, h1]
    have hpos := (hasKey_iff_keyCount_pos db row.symbol row.trade_date).mp hk
    have := hwf row.symbol row.trade_date
    omega
  · have h1 : insert_candle db row = db ++ [row] := by simp [insert_candle, hk]
    have hk0 : keyCount db row.symbol row.trade_date = 0 := by
      by_contra hne
      exact hk ((hasKey_iff_keyCount_pos db row.symbol row.trade_date).mpr (by omega))
    have hk2 : hasKey (db ++ [row]) row.symbol row.trade_date = true := by
      simp [hasKey]
    have h2 : insert_candle (db ++ [row]) row = db ++ [row] := by
      simp [insert_candle, hk2]
    refine ⟨?_, ?_, ?_⟩
    · rw [h1, h2, keyCount_append_single, hk0]
      simp
    · intro hcontra
      exact absurd hcontra (by simp [hk])
    · rw [h1]
      intro sym d
      rw [keyCount_append_single]
      split_ifs with hm
      · have hsym : row.symbol = sym := by
          simp only [Bool.and_eq_true, beq_iff_eq] at hm
          exact hm.1
        have hd : row.trade_date = d := by
          simp only [Bool.and_eq_true, beq_iff_eq] at hm
          exact hm.2
        rw [← hsym, ← hd]
        omega
      · have := hwf sym d
        omega

/-- A sample persisted row used by witnesses. -/
def sampleRow : CandleRow :=
  ⟨"TCS", "2024-01-10", 100, 110, 95, 105, 5000, "FYERS"⟩

/-- **C2** witness: inserting `sampleRow` twice into the empty store leaves
exactly one row for `("TCS", "2024-01-10")`. -/
theorem insert_candle_idempotent_witness :
    keyCount (insert_candle (insert_candle [] sampleRow) sampleRow) "TCS" "2024-01-10" = 1 ∧
    insert_candle [] sampleRow = [sampleRow] := by
  have h := insert_candle_idempotent [] sampleRow (by intro sym d; simp [keyCount])
  exact ⟨h.1, by decide⟩

/-! ## IncrementalCursor (fetcher `main`, lines 240 and 274–284) -/

/-- `get_date_range()`: the global backfill window `[now - LOOKBACK_YEARS*365,
now]`, where `now` is the current UTC day (already midnight-truncated by the
source's `replace(hour=0, ...)`). -/
def get_date_range (now : Int) : Int × Int :=
  (now - LOOKBACK_YEARS * 365, now)

/-- Lines 274–284: the per-symbol incremental decision.  `none` models the
`continue` taken when `last_date + 1 ≥ end_dt` (the symbol is logged as
"already up to date" and none of the chunk/fetch code is reached); `some
(a, b)` is the sub-range handed to `generate_date_chunks`. -/
def symbol_fetch_range (last_date : Option Int) (start_dt end_dt : Int) :
    Option (Int × Int) :=
  match last_date with
  | some d => if d + 1 ≥ end_dt then none else some (d + 1, end_dt)
  | none => some (start_dt, end_dt)

/-- Number of `fetch_with_retry` invocations issued for one symbol: one per
date chunk of the decided range, zero when the symbol is skipped. -/
def remote_fetch_calls (last_date : Option Int) (start_dt end_dt : Int) : Nat :=
  match symbol_fetch_range last_date start_dt end_dt with
  | none => 0
  | some (a, b) => (generate_date_chunks a b MAX_CHUNK_DAYS).length

/-- **C3**: when a prior persisted date `d` exists and `d + 1 ≥ end_dt`, the
symbol is skipped with zero remote fetch calls; when `d + 1 < end_dt`, the
fetched range is exactly `[d + 1, end_dt]`; with no prior date the fetched
range is the full configured lookback window starting at the global start
date `end_dt - LOOKBACK_YEARS*365`. -/
theorem incremental_cursor_spec (d start_dt end_dt : Int) :
    (d + 1 ≥ end_dt →
      symbol_fetch_range (some d) start_dt end_dt = none ∧
      remote_fetch_calls (some d) start_dt end_dt = 0) ∧
    (d + 1 < end_dt →
      symbol_fetch_range (some d) start_dt end_dt = some (d + 1, end_dt)) ∧
    symbol_fetch_range none start_dt end_dt = some (start_dt, end_dt) ∧
    symbol_fetch_range none (get_date_range end_dt).1 end_dt =
      some (end_dt - LOOKBACK_YEARS * 365, end_dt) := by
  refine ⟨?_, ?_, rfl, rfl⟩
  · intro hge
    have h : symbol_fetch_range (some d) start_dt end_dt = none := by
      simp only [symbol_fetch_range]
      rw [if_pos hge]
    exact ⟨h, by simp [remote_fetch_calls, h]⟩
  · intro hlt
    simp only [symbol_fetch_range]
    rw [if_neg (by omega)]

/-- **C3** witness: with day numbers, `last_date = 10` and `end = 11` skips
with zero remote calls; `last_date = 9` and `end = 11` fetches `[10, 11]`. -/
theorem incremental_cursor_spec_witness :
    (symbol_fetch_range (some 10) 0 11 = none ∧
      remote_fetch_calls (some 10) 0 11 = 0) ∧
    symbol_fetch_range (some 9) 0 11 = some (9 + 1, 11) :=
  ⟨(incremental_cursor_spec 10 0 11).1 (by decide),
   (incremental_cursor_spec 9 0 11).2.1 (by decide)⟩

/-! ## RetryExecutor (`fetch_with_retry`, fetcher lines 189–210)

A fetch behavior is a function from the 0-based attempt number to what
`fyers.history(payload)` does on that attempt: return an `"s": "ok"`
response carrying a payload, return a non-ok response, or raise. -/

inductive FetchOutcome where
  | ok (payload : Nat)
  | errStatus
  | exn
deriving DecidableEq, Repr

/-- Did this attempt fail (non-ok status or raised fault)? -/
def FetchOutcome.failed : FetchOutcome → Bool
  | .ok _ => false
  | _ => true

/-- One iteration's `try` body: `fyers.history(payload)` either raises
(`.exn`, an `Except.error`) or yields a response whose `s` field is
inspected; a non-ok response is logged and falls through without a result. -/
def history_attempt (f : Nat → FetchOutcome) (attempt : Nat) :
    Except Unit (Option Nat) :=
  match f attempt with
  | .ok p => .ok (some p)
  | .errStatus => .ok none
  | .exn => .error ()

/-- The `try/except` around the attempt: a raised fault is caught and logged,
leaving the iteration with no successful response. -/
def attempt_result (f : Nat → FetchOutcome) (attempt : Nat) : Option Nat :=
  match history_attempt f attempt with
  | .ok r => r
  | .error _ => none

/-- The `for attempt in range(MAX_RETRIES)` loop of `fetch_with_retry`,
returning the result together with the list of backoff delays slept (line
205: `RETRY_DELAY * (2 ** attempt)`; no sleep after the final attempt).
Every raised fault is consumed by `attempt_result`, so the loop is total:
exhaustion is reported as `none`, never raised to the caller. -/
def retry_loop (f : Nat → FetchOutcome) (attempt : Nat) : Option Nat × List Nat :=
  if _h : attempt < MAX_RETRIES then
    match attempt_result f attempt with
    | some p => (some p, [])
    | none =>
      if attempt < MAX_RETRIES - 1 then
        let rest := retry_loop f (attempt + 1)
        (rest.1, RETRY_DELAY * 2 ^ attempt :: rest.2)
      else
        retry_loop f (attempt + 1)
  else (none, [])
termination_by MAX_RETRIES - attempt
decreasing_by all_goals omega

/-- `fetch_with_retry(fyers, payload, symbol, chunk_from)`. -/
def fetch_with_retry (f : Nat → FetchOutcome) : Option Nat × List Nat :=
  retry_loop f 0

theorem attempt_result_some_iff (f : Nat → FetchOutcome) (i : Nat) (p : Nat) :
    attempt_result f i = some p ↔ f i = .ok p := by
  cases h : f i <;> simp [attempt_result, history_attempt, h]

theorem attempt_result_none_iff (f : Nat → FetchOutcome) (i : Nat) :
    attempt_result f i = none ↔ (f i).failed = true := by
  cases h : f i <;> simp [attempt_result, history_attempt, FetchOutcome.failed, h]

theorem retry_loop_ge (f : Nat → FetchOutcome) (k : Nat) (hk : ¬ k < MAX_RETRIES) :
    retry_loop f k = (none, []) := by
  rw [retry_loop]
  simp [hk]

theorem retry_loop_success (f : Nat → FetchOutcome) (k p : Nat) (hk : k < MAX_RETRIES)
    (h : attempt_result f k = some p) : retry_loop f k = (some p, []) := by
  rw [retry_loop]
  simp [hk, h]

theorem retry_loop_fail_sleep (f : Nat → FetchOutcome) (k : Nat)
    (hk : k < MAX_RETRIES - 1) (h : attempt_result f k = none) :
    retry_loop f k =
      ((retry_loop f (k + 1)).1, RETRY_DELAY * 2 ^ k :: (retry_loop f (k + 1)).2) := by
  rw [retry_loop]
  simp [show k < MAX_RETRIES by omega, h, hk]

theorem retry_loop_fail_last (f : Nat → FetchOutcome) (k : Nat)
    (hk1 : k < MAX_RETRIES) (hk2 : ¬ k < MAX_RETRIES - 1)
    (h : attempt_result f k = none) :
    retry_loop f k = retry_loop f (k + 1) := by
  rw [retry_loop]
  simp [hk1, hk2, h]

/-- **C4**: `fetch_with_retry` (max 3 attempts, base delay 1) returns the
payload of the first successful attempt when one occurs within the maximum —
in particular two failures followed by a success return the success payload —
and returns the failure marker `none` after 3 consecutive failures (the
embedding is a total function into `Option`: every raised fault is caught,
so neither a fault nor a non-success response ever reaches the caller, as the
third conjunct makes explicit); the backoff slept after the `n`-th failed
attempt (1-based), i.e. before retry number `n`, is
`RETRY_DELAY * 2 ^ (n - 1)`, as pinned by the returned delay lists. -/
theorem fetch_with_retry_spec (f : Nat → FetchOutcome) :
    (∀ i p, i < MAX_RETRIES → (∀ j, j < i → (f j).failed = true) → f i = .ok p →
      fetch_with_retry f = (some p, (List.range i).map fun j => RETRY_DELAY * 2 ^ j)) ∧
    ((∀ j, j < MAX_RETRIES → (f j).failed = true) →
      fetch_with_retry f = (none, [RETRY_DELAY * 2 ^ 0, RETRY_DELAY * 2 ^ 1])) ∧
    (∀ p ds, fetch_with_retry f = (some p, ds) → ∃ i, i < MAX_RETRIES ∧ f i = .ok p) := by
  refine ⟨?_, ?_, ?_⟩
  · intro i p hi hprev hok
    have hs : attempt_result f i = some p := (attempt_result_some_iff f i p).mpr hok
    have hi3 : i < 3 := hi
    interval_cases i
    · rw [fetch_with_retry, retry_loop_success f 0 p (by decide) hs]
      simp
    · have h0 : attempt_result f 0 = none :=
        (attempt_result_none_iff f 0).mpr (hprev 0 (by omega))
      rw [fetch_with_retry, retry_loop_fail_sleep f 0 (by decide) h0,
        retry_loop_success f 1 p (by decide) hs]
      simp [List.range_succ]
    · have h0 : attempt_result f 0 = none :=
        (attempt_result_none_iff f 0).mpr (hprev 0 (by omega))
      have h1 : attempt_result f 1 = none :=
        (attempt_result_none_iff f 1).mpr (hprev 1 (by omega))
      rw [fetch_with_retry, retry_loop_fail_sleep f 0 (by decide) h0,
        retry_loop_fail_sleep f 1 (by decide) h1,
        retry_loop_success f 2 p (by decide) hs]
      simp [List.range_succ]
  · intro hall
    have h0 : attempt_result f 0 = none :=
      (attempt_result_none_iff f 0).mpr (hall 0 (by decide))
    have h1 : attempt_result f 1 = none :=
      (attempt_result_none_iff f 1).mpr (hall 1 (by decide))
    have h2 : attempt_result f 2 = none :=
      (attempt_result_none_iff f 2).mpr (hall 2 (by decide))
    rw [fetch_with_retry, retry_loop_fail_sleep f 0 (by decide) h0,
      retry_loop_fail_sleep f 1 (by decide) h1,
      retry_loop_fail_last f 2 (by decide) (by decide) h2,
      retry_loop_ge f 3 (by decide)]
  · intro p ds hres
    rcases h0 : attempt_result f 0 with - | p0
    · rcases h1 : attempt_result f 1 with - | p1
      · rcases h2 : attempt_result f 2 with - | p2
        · rw [fetch_with_retry, retry_loop_fail_sleep f 0 (by decide) h0,
            retry_loop_fail_sleep f 1 (by decide) h1,
            retry_loop_fail_last f 2 (by decide) (by decide) h2,
            retry_loop_ge f 3 (by decide)] at hres
          simp at hres
        · rw [fetch_with_retry, retry_loop_fail_sleep f 0 (by decide) h0,
            retry_loop_fail_sleep f 1 (by decide) h1,
            retry_loop_success f 2 p2 (by decide) h2] at hres
          simp at hres
          exact ⟨2, by decide, (attempt_result_some_iff f 2 p).mp (by rw [h2, hres.1])⟩
      · rw [fetch_with_retry, retry_loop_fail_sleep f 0 (by decide) h0,
          retry_loop_success f 1 p1 (by decide) h1] at hres
        simp at hres
        exact ⟨1, by decide, (attempt_result_some_iff f 1 p).mp (by rw [h1, hres.1])⟩
    · rw [fetch_with_retry, retry_loop_success f 0 p0 (by decide) h0] at hres
      simp at hres
      exact ⟨0, by decide, (attempt_result_some_iff f 0 p).mp (by rw [h0, hres.1])⟩

/-- A fetch behavior with two failures (a non-ok status, then a raised
fault) followed by success with payload 7. -/
def retrySample : Nat → FetchOutcome :=
  fun i => if i = 0 then .errStatus else if i = 1 then .exn else .ok 7

/-- **C4** witness: two simulated failures followed by a success return the
success payload, after backoff waits of 1 and 2 seconds. -/
theorem fetch_with_retry_spec_witness :
    fetch_with_retry retrySample = (some 7, [1, 2]) := by
  have h := (fetch_with_retry_spec retrySample).1 2 7 (by decide) (by decide) rfl
  simpa using h

/-! ## BackfillEngine symbol loop (fetcher `main`, lines 270–356)

One symbol's interaction with the outside world is abstracted as what its
two fallible phases do: the cursor query `get_last_date` (line 274, which
runs *before* the per-symbol `try` of line 288) yields the symbol's last
persisted date or raises, and the `try`-block body (chunk planning, fetching,
validation, persistence, lines 288–352) yields the number of candles
inserted or raises. -/

structure SymbolRun where
  cursor : Except PyErr (Option Int)
  body : Except PyErr Nat
deriving Repr

inductive SymStatus where
  | skippedUpToDate
  | completed (candles : Nat)
  | failed
deriving DecidableEq, Repr

/-- Outcome of the `try/except` block: a caught fault records the symbol as
failed (line 354–356), otherwise it completed with `n` candles inserted. -/
def bodyStatus : Except PyErr Nat → SymStatus
  | .ok n => .completed n
  | .error _ => .failed

/-- Lines 270–356 for one symbol.  The cursor query is outside the `try`
block, so its fault propagates out of the symbol's processing; the body's
fault is caught at symbol scope. -/
def process_symbol (start_dt end_dt : Int) (r : SymbolRun) : Except PyErr SymStatus :=
  match r.cursor with
  | .error e => .error e
  | .ok last =>
    match symbol_fetch_range last start_dt end_dt with
    | none => .ok .skippedUpToDate
    | some _ => .ok (bodyStatus r.body)

/-- The `for idx, symbol in enumerate(symbols)` loop: a fault propagating
from one symbol's processing aborts the remaining symbols (the enclosing
`try` of line 231 merely logs and re-raises). -/
def run_universe (start_dt end_dt : Int) : List SymbolRun → Except PyErr (List SymStatus)
  | [] => .ok []
  | r :: rest => do
    let s ← process_symbol start_dt end_dt r
    let ss ← run_universe start_dt end_dt rest
    pure (s :: ss)

/-- The per-symbol outcome when the cursor query does not fault. -/
def symStatus (start_dt end_dt : Int) (r : SymbolRun) : SymStatus :=
  match r.cursor with
  | .error _ => .failed
  | .ok last =>
    match symbol_fetch_range last start_dt end_dt with
    | none => .skippedUpToDate
    | some _ => bodyStatus r.body

theorem process_symbol_ok (start_dt end_dt : Int) (r : SymbolRun)
    (h : ∃ v, r.cursor = .ok v) :
    process_symbol start_dt end_dt r = .ok (symStatus start_dt end_dt r) := by
  rcases h with ⟨v, hv⟩
  simp only [process_symbol, symStatus, hv]
  cases h' : symbol_fetch_range v start_dt end_dt <;> simp

/-- **C6** counterexample: a fault raised by the cursor query
(`get_last_date`, line 274) is *outside* the per-symbol `try` (line 288), so
it propagates and aborts the whole run — the second symbol of this
two-symbol universe is never processed and no `.ok` status list is produced,
refuting "any unhandled fault ... from cursor query ... is caught at symbol
scope ... and the engine's loop proceeds". -/
theorem run_universe_cursor_fault_halts :
    run_universe 0 100 [⟨.error .valueError, .ok 0⟩, ⟨.ok none, .ok 5⟩] =
      .error .valueError := rfl

/-- **C6** (amended): any unhandled fault raised *inside the per-symbol
`try` block* — chunk planning through fetching, validation and persistence —
is caught at symbol scope, the symbol is recorded as failed, and the loop
processes every symbol of the universe, each status depending only on that
symbol's own behavior; a fault in the cursor query itself (which runs before
the `try` block) is excluded, as it propagates and aborts the batch. -/
theorem run_universe_fault_isolation (start_dt end_dt : Int) (runs : List SymbolRun)
    (hc : ∀ r ∈ runs, ∃ v, r.cursor = .ok v) :
    run_universe start_dt end_dt runs = .ok (runs.map (symStatus start_dt end_dt)) ∧
    (∀ r ∈ runs, ∀ last, r.cursor = .ok last →
      symbol_fetch_range last start_dt end_dt ≠ none →
      (∀ n, r.body ≠ .ok n) → symStatus start_dt end_dt r = .failed) := by
  constructor
  · induction runs with
    | nil => rfl
    | cons r rest ih =>
      have hr := hc r (List.mem_cons_self _ _)
      have hrest := ih (fun r' hr' => hc r' (List.mem_cons_of_mem _ hr'))
      simp only [run_universe, process_symbol_ok start_dt end_dt r hr, hrest,
        List.map_cons, bind, Except.bind, pure, Except.pure]
  · intro r _hr last hlast hnotskip hbody
    simp only [symStatus, hlast]
    cases h' : symbol_fetch_range last start_dt end_dt with
    | none => exact absurd h' hnotskip
    | some _ =>
      cases hb : r.body with
      | ok n => exact absurd hb (hbody n)
      | error e => simp [bodyStatus, hb]

/-- A symbol whose try-block body raises. -/
def faultyRun : SymbolRun := ⟨.ok none, .error .typeError⟩

/-- A symbol whose try-block body completes with 3 candles. -/
def healthyRun : SymbolRun := ⟨.ok none, .ok 3⟩

/-- **C6** witness: a universe where the first symbol's body faults still
processes the second symbol; the first is recorded failed. -/
theorem run_universe_fault_isolation_witness :
    run_universe 0 100 [faultyRun, healthyRun] = .ok [.failed, .completed 3] := by
  have h := (run_universe_fault_isolation 0 100 [faultyRun, healthyRun]
    (by intro r hr; fin_cases hr <;> exact ⟨none, rfl⟩)).1
  simpa [faultyRun, healthyRun, symStatus, bodyStatus, symbol_fetch_range] using h

end Backfill

namespace Dashboard

open Backfill (PyErr)

/-! ## LogStateReconstructor (`dashboard/main.py`, lines 95–151)

The three `re.search` patterns of the parser are implemented directly over
character lists, following Python regex semantics for these specific
patterns: leftmost match (scan start positions left to right), greedy `\d+`
and `[\w-]+` (maximal munch is exact here because each is followed in its
pattern by a character it can never match), ordered alternation (the three
alternatives start with distinct letters), and the greedy optional `NSE:`
group with backtracking. -/

/-- `[\w-]`: a Python word character or a dash (the symbols at hand are
ASCII). -/
def isWordChar (ch : Char) : Bool := ch.isAlphanum || ch == '_' || ch == '-'

/-- Maximal munch of `\d+`; returns the digits and the rest. -/
def takeDigits : List Char → List Char × List Char
  | [] => ([], [])
  | ch :: rest =>
    if ch.isDigit then
      let (d, r) := takeDigits rest
      (ch :: d, r)
    else ([], ch :: rest)

/-- Maximal munch of `[\w-]+`; returns the word characters and the rest. -/
def takeWordChars : List Char → List Char × List Char
  | [] => ([], [])
  | ch :: rest =>
    if isWordChar ch then
      let (w, r) := takeWordChars rest
      (ch :: w, r)
    else ([], ch :: rest)

/-- Match a literal; returns the remaining input on success. -/
def stripLit : List Char → List Char → Option (List Char)
  | [], cs => some cs
  | _ :: _, [] => none
  | l :: ls, ch :: cs => if ch = l then stripLit ls cs else none

/-- Numeric value of a digit string (as matched by `\d+` and read by
Python's `int`). -/
def digitsVal (ds : List Char) : Nat :=
  ds.foldl (fun n ch => n * 10 + (ch.toNat - 48)) 0

/-- `Processing|Incremental update for|Full backfill for`, tried in pattern
order; the alternatives begin with distinct letters, so at most one matches
at a given position. -/
def matchAlt (cs : List Char) : Option (List Char) :=
  match stripLit "Processing".toList cs with
  | some r => some r
  | none =>
    match stripLit "Incremental update for".toList cs with
    | some r => some r
    | none => stripLit "Full backfill for".toList cs

/-- `(?:NSE:)?([\w-]+)`: the greedy optional group is tried first; if
consuming `NSE:` leaves no word character for `[\w-]+`, the group is dropped
and `[\w-]+` matches from the original position. -/
def matchSym (cs : List Char) : Option String :=
  match stripLit "NSE:".toList cs with
  | some cs2 =>
    let (w, _) := takeWordChars cs2
    if w.isEmpty then
      let (w0, _) := takeWordChars cs
      if w0.isEmpty then none else some (String.mk w0)
    else some (String.mk w)
  | none =>
    let (w0, _) := takeWordChars cs
    if w0.isEmpty then none else some (String.mk w0)

/-- The processing-start pattern (line 115)
`\[(\d+)/(\d+)\] (?:Processing|Incremental update for|Full backfill for)
(?:NSE:)?([\w-]+)` anchored at this position; yields
`(index, total, symbol)`. -/
def matchStartAt (cs : List Char) : Option (Nat × Nat × String) :=
  match stripLit "[".toList cs with
  | none => none
  | some cs1 =>
    let (d1, cs2) := takeDigits cs1
    if d1.isEmpty then none else
    match stripLit "/".toList cs2 with
    | none => none
    | some cs3 =>
      let (d2, cs4) := takeDigits cs3
      if d2.isEmpty then none else
      match stripLit "] ".toList cs4 with
      | none => none
      | some cs5 =>
        match matchAlt cs5 with
        | none => none
        | some cs6 =>
          match stripLit " ".toList cs6 with
          | none => none
          | some cs7 =>
            match matchSym cs7 with
            | none => none
            | some sname => some (digitsVal d1, digitsVal d2, sname)

/-- `re.search` for the processing-start pattern: leftmost position wins. -/
def searchStart : List Char → Option (Nat × Nat × String)
  | [] => none
  | ch :: rest =>
    match matchStartAt (ch :: rest) with
    | some r => some r
    | none => searchStart rest

/-- Tail literal of the up-to-date pattern (line 124). -/
def upLit : List Char := " is already up to date".toList

def matchUpWith (cs : List Char) : Option String :=
  let (w, cs2) := takeWordChars cs
  if w.isEmpty then none
  else
    match stripLit upLit cs2 with
    | some _ => some (String.mk w)
    | none => none

/-- The up-to-date pattern `(?:NSE:)?([\w-]+) is already up to date`
anchored at this position. -/
def matchUpAt (cs : List Char) : Option String :=
  match stripLit "NSE:".toList cs with
  | some cs2 =>
    match matchUpWith cs2 with
    | some w => some w
    | none => matchUpWith cs
  | none => matchUpWith cs

def searchUp : List Char → Option String
  | [] => none
  | ch :: rest =>
    match matchUpAt (ch :: rest) with
    | some r => some r
    | none => searchUp rest

/-- The completion pattern (line 132)
`✅ Completed - (\d+) candles inserted` anchored at this position. -/
def matchCompAt (cs : List Char) : Option Nat :=
  match stripLit "✅ Completed - ".toList cs with
  | none => none
  | some cs1 =>
    let (ds, cs2) := takeDigits cs1
    if ds.isEmpty then none
    else
      match stripLit " candles inserted".toList cs2 with
      | some _ => some (digitsVal ds)
      | none => none

def searchComp : List Char → Option Nat
  | [] => none
  | ch :: rest =>
    match matchCompAt (ch :: rest) with
    | some r => some r
    | none => searchComp rest

/-- `DashboardState` (lines 34–56).  The per-symbol dict
`session_symbol_stats` is an insertion-ordered association list
`symbol ↦ (status, candles)`; `db_size` is kept in bytes (the source's
float-MB rounding is presentation only). -/
structure DashboardState where
  is_running : Bool
  last_run : String
  total_symbols : Nat
  processed : Nat
  updated : Nat
  up_to_date : Nat
  total_candles : Nat
  current_symbol : String
  session_symbol_stats : List (String × String × Nat)
  db_size : Nat
  total_db_rows : Nat
  table_name : String
  min_date : String
  max_date : String
  unique_symbols : Nat
deriving DecidableEq, Repr

/-- The module-level initial state. -/
def initState : DashboardState :=
  ⟨false, "Never", 0, 0, 0, 0, 0, "Idle", [], 0, 0,
   "equity_daily_candles_swing_trading", "N/A", "N/A", 0⟩

/-- Python dict assignment `d[k] = v` on an insertion-ordered assoc list. -/
def dictSet (d : List (String × String × Nat)) (k : String) (v : String × Nat) :
    List (String × String × Nat) :=
  match d with
  | [] => [(k, v)]
  | (k', v') :: rest => if k' = k then (k, v) :: rest else (k', v') :: dictSet rest k v

/-- Dict lookup. -/
def dictGet (d : List (String × String × Nat)) (k : String) : Option (String × Nat) :=
  match d with
  | [] => none
  | (k', v') :: rest => if k' = k then some v' else dictGet rest k

/-- Python `set.add`. -/
def setInsert (s : List String) (x : String) : List String :=
  if x ∈ s then s else s ++ [x]

/-- The loop locals of `parse_log_for_summary` (lines 107–111). -/
structure ParseAcc where
  processed_set : List String
  updated_count : Nat
  uptodate_count : Nat
  candle_count : Nat
  current : String
deriving DecidableEq, Repr

/-- One iteration of `for line in lines` (lines 113–142): the three patterns
are tried in source order, each updating the module state and the loop
locals when it matches. -/
def stepLine (sa : DashboardState × ParseAcc) (line : String) :
    DashboardState × ParseAcc :=
  let cs := line.toList
  let (st0, acc0) := sa
  let (st1, acc1) :=
    match searchStart cs with
    | some (_, tot, sname) =>
      ({ st0 with
          session_symbol_stats := dictSet st0.session_symbol_stats sname ("active", 0),
          total_symbols := tot },
       { acc0 with current := sname,
                   processed_set := setInsert acc0.processed_set sname })
    | none => (st0, acc0)
  let (st2, acc2) :=
    match searchUp cs with
    | some sname =>
      ({ st1 with
          session_symbol_stats := dictSet st1.session_symbol_stats sname ("uptodate", 0) },
       { acc1 with processed_set := setInsert acc1.processed_set sname,
                   uptodate_count := acc1.uptodate_count + 1 })
    | none => (st1, acc1)
  match searchComp cs with
  | some count =>
    let acc3 := { acc2 with candle_count := acc2.candle_count + count }
    if acc3.current ≠ "Idle" then
      if 0 < count then
        ({ st2 with
            session_symbol_stats :=
              dictSet st2.session_symbol_stats acc3.current ("updated", count) },
         { acc3 with updated_count := acc3.updated_count + 1 })
      else
        if (dictGet st2.session_symbol_stats acc3.current).map Prod.fst ≠ some "uptodate" then
          ({ st2 with
              session_symbol_stats :=
                dictSet st2.session_symbol_stats acc3.current ("uptodate", 0) }, acc3)
        else (st2, acc3)
    else (st2, acc3)
  | none => (st2, acc2)

/-- `parse_log_for_summary` (lines 95–151).  The bounded tail window read
inside the `try` is abstracted as `log_file`: `none` when the log file does
not exist (early return, lines 97–98), `.error` when opening or reading it
raises (caught at line 150, leaving the state as it was), `.ok lines`
otherwise.  After the loop, the locals are written into the state (lines
144–148). -/
def parse_log_for_summary (log_file : Option (Except PyErr (List String)))
    (st : DashboardState) : DashboardState :=
  match log_file with
  | none => st
  | some (.error _) => st
  | some (.ok lines) =>
    let (st', acc) := lines.foldl stepLine
      (st, { processed_set := [], updated_count := 0, uptodate_count := 0,
             candle_count := 0, current := "Idle" })
    { st' with processed := acc.processed_set.length,
               updated := acc.updated_count,
               up_to_date := acc.uptodate_count,
               total_candles := acc.candle_count,
               current_symbol := acc.current }

theorem dictGet_dictSet (d : List (String × String × Nat)) (k : String) (v : String × Nat) :
    dictGet (dictSet d k v) k = some v := by
  induction d with
  | nil => simp [dictSet, dictGet]
  | cons p rest ih =>
    rcases p with ⟨k', v'⟩
    by_cases hk : k' = k <;> simp [dictSet, dictGet, hk, ih]

/-- **C7** counterexample: the completion regex of line 132 requires the
literal `\u2705 Completed - `; on the claim's synthetic window — the line
`[3/50] Processing NSE:TCS` followed by the line
`Completed - 120 candles inserted` (no check-mark) — the completion line
matches nothing, so the snapshot does report `total_symbols = 50` but leaves
TCS with status `"active"` and 0 candles instead of the claimed `"updated"`
with 120. -/
theorem parse_log_unticked_completion_ignored :
    (parse_log_for_summary (some (.ok ["[3/50] Processing NSE:TCS",
        "Completed - 120 candles inserted"])) initState).total_symbols = 50 ∧
    dictGet (parse_log_for_summary (some (.ok ["[3/50] Processing NSE:TCS",
        "Completed - 120 candles inserted"])) initState).session_symbol_stats "TCS" =
      some ("active", 0) ∧
    searchComp "Completed - 120 candles inserted".toList = none :=
  ⟨rfl, rfl, rfl⟩

/-- **C7** (amended): on the log window of the line
`[3/50] Processing NSE:TCS` followed by the engine's actual completion line
`  \u2705 Completed - 120 candles inserted`, the snapshot has
`total_symbols = 50` and TCS in status `"updated"` with 120 candles; and in
general a completion line with count `N` (matching no other pattern) adds
`N` to the candle total and transitions the currently active symbol to
`"updated"` when `N > 0`, and to `"uptodate"` when `N = 0` unless it is
already marked `"uptodate"`, in which case the state is untouched. -/
theorem parse_log_completion_spec :
    ((parse_log_for_summary (some (.ok ["[3/50] Processing NSE:TCS",
        "  \u2705 Completed - 120 candles inserted"])) initState).total_symbols = 50 ∧
     dictGet (parse_log_for_summary (some (.ok ["[3/50] Processing NSE:TCS",
        "  \u2705 Completed - 120 candles inserted"])) initState).session_symbol_stats "TCS" =
       some ("updated", 120) ∧
     (parse_log_for_summary (some (.ok ["[3/50] Processing NSE:TCS",
        "  \u2705 Completed - 120 candles inserted"])) initState).total_candles = 120) ∧
    (∀ (st : DashboardState) (acc : ParseAcc) (line : String) (n : Nat),
      searchStart line.toList = none → searchUp line.toList = none →
      searchComp line.toList = some n → acc.current ≠ "Idle" →
      (stepLine (st, acc) line).2.candle_count = acc.candle_count + n ∧
      (0 < n →
        dictGet (stepLine (st, acc) line).1.session_symbol_stats acc.current =
          some ("updated", n) ∧
        (stepLine (st, acc) line).2.updated_count = acc.updated_count + 1) ∧
      (n = 0 → (dictGet st.session_symbol_stats acc.current).map Prod.fst ≠ some "uptodate" →
        dictGet (stepLine (st, acc) line).1.session_symbol_stats acc.current =
          some ("uptodate", 0)) ∧
      (n = 0 → (dictGet st.session_symbol_stats acc.current).map Prod.fst = some "uptodate" →
        (stepLine (st, acc) line).1 = st)) := by
  refine ⟨⟨rfl, rfl, rfl⟩, ?_⟩
  intro st acc line n h1 h2 h3 h4
  simp only [stepLine, h1, h2, h3]
  rw [if_pos (by simpa using h4)]
  by_cases hn : 0 < n
  · rw [if_pos hn]
    refine ⟨rfl, fun _ => ⟨dictGet_dictSet _ _ _, rfl⟩, ?_, ?_⟩
    · intro hn0; omega
    · intro hn0; omega
  · have hn0 : n = 0 := by omega
    subst hn0
    rw [if_neg (by omega)]
    by_cases hup : (dictGet st.session_symbol_stats acc.current).map Prod.fst = some "uptodate"
    · rw [if_neg (by simpa using hup)]
      refine ⟨by simp, fun h => absurd h (by omega), ?_, fun _ _ => rfl⟩
      intro _ hne
      exact absurd hup hne
    · rw [if_pos (by simpa using hup)]
      refine ⟨by simp, fun h => absurd h (by omega), ?_, ?_⟩
      · intro _ _
        exact dictGet_dictSet _ _ _
      · intro _ hcontra
        exact absurd hcontra hup


/-- A mid-run parser state whose active symbol is TCS. -/
def tcsAcc : ParseAcc := ⟨["TCS"], 0, 0, 0, "TCS"⟩

/-- **C7** witness: the general completion rule applied to a concrete state
with active symbol TCS and a completion line with count 7. -/
theorem parse_log_completion_spec_witness :
    (stepLine (initState, tcsAcc) "  \u2705 Completed - 7 candles inserted").2.candle_count = 7 ∧
    dictGet (stepLine (initState, tcsAcc)
        "  \u2705 Completed - 7 candles inserted").1.session_symbol_stats "TCS" =
      some ("updated", 7) := by
  have h := parse_log_completion_spec.2 initState tcsAcc
    "  \u2705 Completed - 7 candles inserted" 7 rfl rfl rfl (by decide)
  exact ⟨h.1, (h.2.1 (by decide)).1⟩

/-- `/api/start_backfill` (lines 244–257): if a run is active return `Busy`
without touching anything; otherwise reset the session counters and stats
and launch the engine in the background.  The middle component counts the
`background_tasks.add_task` calls made by this request. -/
def start_backfill (st : DashboardState) : DashboardState × Nat × String :=
  if st.is_running then (st, 0, "Busy")
  else
    ({ st with processed := 0, updated := 0, up_to_date := 0,
               total_candles := 0, session_symbol_stats := [] }, 1, "Started")

/-- **C8**: while a run is active, a start request returns the busy
response, launches no second run, and leaves the state — in particular the
session counters — unchanged; while idle, it launches exactly one run and
returns the started response. -/
theorem start_backfill_guard (st : DashboardState) :
    (st.is_running = true → start_backfill st = (st, 0, "Busy")) ∧
    (st.is_running = false →
      (start_backfill st).2.1 = 1 ∧ (start_backfill st).2.2 = "Started") := by
  constructor
  · intro h
    simp [start_backfill, h]
  · intro h
    simp [start_backfill, h]

/-- A state in which a run is active and some session counters are set. -/
def busyState : DashboardState := { initState with is_running := true, processed := 5 }

/-- **C8** witness: the busy state rejects the request unchanged; the idle
initial state launches one run. -/
theorem start_backfill_guard_witness :
    start_backfill busyState = (busyState, 0, "Busy") ∧
    (start_backfill initState).2.1 = 1 ∧ (start_backfill initState).2.2 = "Started" :=
  ⟨(start_backfill_guard busyState).1 rfl, (start_backfill_guard initState).2 rfl⟩

/-- The monitor's environment on one status request: what each fallible
external read does.  `none` for a file field means `os.path.exists` is
false; `.error` means the subsequent open/parse/query raised. -/
structure MonitorEnv where
  token_file : Option (Except PyErr (Bool × String))
  log_file : Option (Except PyErr (List String))
  db_file_size : Option Nat
  db_query : Except PyErr (Nat × Nat × Option String × Option String)

/-- `get_db_stats` (lines 77–93): the size update is guarded by
`os.path.exists` (not a fault source in a sequential run); the aggregate
query runs inside `try/except`, so on a fault the previous values are kept;
`NULL` aggregate results fall back to `0`/`"N/A"`. -/
def get_db_stats (env : MonitorEnv) (st : DashboardState) : DashboardState :=
  let st1 :=
    match env.db_file_size with
    | some sz => { st with db_size := sz }
    | none => st
  match env.db_query with
  | .ok (rows, syms, d1, d2) =>
    { st1 with total_db_rows := rows, unique_symbols := syms,
               min_date := d1.getD "N/A", max_date := d2.getD "N/A" }
  | .error _ => st1

structure StatusSummary where
  is_running : Bool
  token_valid : Bool
  token_expiry : String
  last_run : String
  total_symbols : Nat
  processed : Nat
  updated : Nat
  up_to_date : Nat
  total_candles : Nat
  current_symbol : String
  db_size : Nat
  total_db_rows : Nat
  table_name : String
  min_date : String
  max_date : String
  unique_symbols : Nat
  symbol_results : List (String × String × Nat)
deriving DecidableEq, Repr

/-- `/api/status` (lines 192–228), exception-transparent: a fault escaping
an inner guard would surface as `.error`.  The token block's bare
`except: pass` yields `(False, "Unknown")` on a missing or malformed token
file, and the guards inside `parse_log_for_summary` and `get_db_stats`
consume their fault sources, so the endpoint always returns `.ok` with a
complete summary assembled from the surviving state. -/
def get_status (env : MonitorEnv) (st : DashboardState) :
    Except PyErr (DashboardState × StatusSummary) :=
  let tok :=
    match env.token_file with
    | none => (false, "Unknown")
    | some (.error _) => (false, "Unknown")
    | some (.ok te) => te
  let st2 := get_db_stats env (parse_log_for_summary env.log_file st)
  .ok (st2,
    { is_running := st2.is_running, token_valid := tok.1, token_expiry := tok.2,
      last_run := st2.last_run, total_symbols := st2.total_symbols,
      processed := st2.processed, updated := st2.updated,
      up_to_date := st2.up_to_date, total_candles := st2.total_candles,
      current_symbol := st2.current_symbol, db_size := st2.db_size,
      total_db_rows := st2.total_db_rows, table_name := st2.table_name,
      min_date := st2.min_date, max_date := st2.max_date,
      unique_symbols := st2.unique_symbols,
      symbol_results := st2.session_symbol_stats })

theorem get_db_stats_counters (env : MonitorEnv) (st : DashboardState) :
    (get_db_stats env st).processed = st.processed ∧
    (get_db_stats env st).updated = st.updated ∧
    (get_db_stats env st).total_candles = st.total_candles ∧
    (get_db_stats env st).current_symbol = st.current_symbol ∧
    (get_db_stats env st).session_symbol_stats = st.session_symbol_stats := by
  simp only [get_db_stats]
  split <;> split <;> simp

theorem get_db_stats_error (env : MonitorEnv) (st : DashboardState) (e : PyErr)
    (h : env.db_query = .error e) :
    (get_db_stats env st).total_db_rows = st.total_db_rows ∧
    (get_db_stats env st).min_date = st.min_date ∧
    (get_db_stats env st).max_date = st.max_date ∧
    (get_db_stats env st).unique_symbols = st.unique_symbols := by
  simp only [get_db_stats, h]
  split <;> simp

theorem stepLine_db_fields (st : DashboardState) (acc : ParseAcc) (line : String) :
    (stepLine (st, acc) line).1.total_db_rows = st.total_db_rows ∧
    (stepLine (st, acc) line).1.min_date = st.min_date ∧
    (stepLine (st, acc) line).1.max_date = st.max_date ∧
    (stepLine (st, acc) line).1.unique_symbols = st.unique_symbols := by
  simp only [stepLine]
  rcases searchStart line.toList with - | v
  · rcases searchUp line.toList with - | w
    · rcases searchComp line.toList with - | n
      · simp
      · simp only
        split_ifs <;> simp
    · rcases searchComp line.toList with - | n
      · simp
      · simp only
        split_ifs <;> simp
  · rcases v with ⟨i, tot, sname⟩
    rcases searchUp line.toList with - | w
    · rcases searchComp line.toList with - | n
      · simp
      · simp only
        split_ifs <;> simp
    · rcases searchComp line.toList with - | n
      · simp
      · simp only
        split_ifs <;> simp

theorem foldl_stepLine_db_fields (lines : List String) :
    ∀ (sa : DashboardState × ParseAcc),
      (lines.foldl stepLine sa).1.total_db_rows = sa.1.total_db_rows ∧
      (lines.foldl stepLine sa).1.min_date = sa.1.min_date ∧
      (lines.foldl stepLine sa).1.max_date = sa.1.max_date ∧
      (lines.foldl stepLine sa).1.unique_symbols = sa.1.unique_symbols := by
  induction lines with
  | nil => intro sa; exact ⟨rfl, rfl, rfl, rfl⟩
  | cons l ls ih =>
    intro sa
    rcases sa with ⟨st, acc⟩
    have h1 := stepLine_db_fields st acc l
    have h2 := ih (stepLine (st, acc) l)
    simp only [List.foldl_cons]
    exact ⟨h2.1.trans h1.1, h2.2.1.trans h1.2.1, h2.2.2.1.trans h1.2.2.1,
      h2.2.2.2.trans h1.2.2.2⟩


theorem parse_log_db_fields (lf : Option (Except PyErr (List String)))
    (st : DashboardState) :
    (parse_log_for_summary lf st).total_db_rows = st.total_db_rows ∧
    (parse_log_for_summary lf st).min_date = st.min_date ∧
    (parse_log_for_summary lf st).max_date = st.max_date ∧
    (parse_log_for_summary lf st).unique_symbols = st.unique_symbols := by
  match lf with
  | none => exact ⟨rfl, rfl, rfl, rfl⟩
  | some (.error _) => exact ⟨rfl, rfl, rfl, rfl⟩
  | some (.ok lines) =>
    simp only [parse_log_for_summary]
    have h := foldl_stepLine_db_fields lines (st,
      { processed_set := [], updated_count := 0, uptodate_count := 0,
        candle_count := 0, current := "Idle" })
    exact ⟨h.1, h.2.1, h.2.2.1, h.2.2.2⟩
/-- **C9**: for every content of the log file, token file and store —
missing files, read/parse faults, malformed store — the status endpoint
never propagates an error: it returns `.ok` with a well-formed summary built
from the state that survives, and on each fault the corresponding fields
degrade to their last-known or placeholder values (session counters on a
log fault, health metrics on a store fault, token placeholders on a token
fault). -/
theorem get_status_never_fails (env : MonitorEnv) (st : DashboardState) :
    ∃ st' summary, get_status env st = .ok (st', summary) ∧
      summary.symbol_results = st'.session_symbol_stats ∧
      summary.processed = st'.processed ∧
      summary.total_db_rows = st'.total_db_rows ∧
      ((env.log_file = none ∨ ∃ e, env.log_file = some (.error e)) →
        st'.processed = st.processed ∧ st'.updated = st.updated ∧
        st'.total_candles = st.total_candles ∧
        st'.current_symbol = st.current_symbol ∧
        st'.session_symbol_stats = st.session_symbol_stats) ∧
      (∀ e, env.db_query = .error e →
        st'.total_db_rows = st.total_db_rows ∧ st'.min_date = st.min_date ∧
        st'.max_date = st.max_date ∧ st'.unique_symbols = st.unique_symbols) ∧
      ((env.token_file = none ∨ ∃ e, env.token_file = some (.error e)) →
        summary.token_valid = false ∧ summary.token_expiry = "Unknown") := by
  refine ⟨_, _, rfl, rfl, rfl, rfl, ?_, ?_, ?_⟩
  · intro hl
    have hp : parse_log_for_summary env.log_file st = st := by
      rcases hl with hl | ⟨e, hl⟩
      · rw [hl]
        rfl
      · rw [hl]
        rfl
    rw [hp]
    exact get_db_stats_counters env st
  · intro e he
    have h1 := get_db_stats_error env (parse_log_for_summary env.log_file st) e he
    have h2 := parse_log_db_fields env.log_file st
    exact ⟨h1.1.trans h2.1, h1.2.1.trans h2.2.1, h1.2.2.1.trans h2.2.2.1,
      h1.2.2.2.trans h2.2.2.2⟩
  · intro ht
    rcases ht with ht | ⟨e, ht⟩ <;> rw [ht] <;> exact ⟨rfl, rfl⟩

/-- An environment in which every external read faults. -/
def badEnv : MonitorEnv :=
  ⟨some (.error .typeError), some (.error .valueError), none, .error .typeError⟩

/-- **C9** witness: even when every external read faults, the endpoint
returns a well-formed `.ok` response. -/
theorem get_status_never_fails_witness :
    (get_status badEnv initState).isOk = true := by
  rcases get_status_never_fails badEnv initState with ⟨st', summary, heq, -⟩
  rw [heq]
  rfl

end Dashboard
